import Mathlib

/-!
Shallow embedding of the bot configuration store (`BotConfig.js`) of the
botbuilder-tools repository: service descriptors, the secret/verifier
validation protocol, field-level encryption, connect/disconnect and save.

JavaScript mutation is modelled by explicit state passing (each operation
returns the updated `BotConfig`), and `throw` by `Except BotError`.  The
node `crypto` cipher (`createCipher`/`createDecipher` with `aes192`) is an
external library; it is modelled by a `Cipher` structure whose `roundtrip`
and `encNE` fields record the library's contract (decrypting a ciphertext
with the secret that produced it recovers the plaintext, and a ciphertext
is a non-empty hex string).
-/

namespace BotCfg

/-- The `ServiceType` enum of the source: endpoint, abs, luis, qna, dispatch. -/
inductive ServiceType
  | endpoint
  | abs
  | luis
  | qna
  | dispatch
deriving DecidableEq, Repr

/-- A service descriptor: `type`, `id`, `name` plus the remaining fields of the
JSON object, kept as a key/value list (`props`). -/
structure BotService where
  type : ServiceType
  id : String
  name : String
  props : List (String × String)
deriving DecidableEq, Repr

/-- Reading `service[key]` on the parts of the object beyond type/id/name:
first binding wins; a missing key is JavaScript `undefined`, i.e. `none`. -/
def getProp : List (String × String) → String → Option String
  | [], _ => none
  | (k, v) :: rest, key => if k = key then some v else getProp rest key

/-- Writing `service[key] = value`: replace the first binding of the key, or
append a fresh binding when the key is absent. -/
def setProp : List (String × String) → String → String → List (String × String)
  | [], key, value => [(key, value)]
  | (k, v) :: rest, key, value =>
    if k = key then (key, value) :: rest else (k, v) :: setProp rest key value

/-- The node `crypto` symmetric cipher used via `createCipher('aes192', secret)`:
`enc secret plaintext` is the hex ciphertext, `decTry secret ciphertext` the
decryption, `none` when the decipher throws.  `roundtrip` and `encNE` are the
library's contract: decryption with the encrypting secret succeeds and returns
the plaintext, and a ciphertext (one padded AES block at least, hex encoded)
is never the empty string. -/
structure Cipher where
  enc : String → String → String
  decTry : String → String → Option String
  roundtrip : ∀ s p, decTry s (enc s p) = some p
  encNE : ∀ s p, enc s p ≠ ""

/-- The errors thrown by `BotConfig`. -/
inductive BotError
  | secretMissing
  | secretIncorrect
  | duplicateService (id : String)
  | serviceNotFound (nameOrId : String)
  | cryptoFailure
deriving DecidableEq, Repr

/-- The message carried by each thrown `Error`, verbatim from the source
(`cryptoFailure` stands for the engine-generated message of a raw `crypto`
exception escaping `internalDecrypt`). -/
def BotError.message : BotError → String
  | .secretMissing =>
    "You are attempting to perform an operation which needs access to the secret and --secret is missing"
  | .secretIncorrect =>
    "You are attempting to perform an operation which needs access to the secret and --secret is incorrect."
  | .duplicateService id => "service with " ++ id ++ " already connected"
  | .serviceNotFound nameOrId =>
    "a service with id or name of [" ++ nameOrId ++ "] was not found"
  | .cryptoFailure => "crypto error"

/-- The `BotConfig` state: the serialized fields `name`, `secretKey` (the spec's
`secretVerifier`), `description`, `services`, and the non-serialized
`internal` fields `secret`, `secretValidated` and `location`. -/
structure BotConfig where
  name : String
  secretKey : String
  description : String
  services : List BotService
  secret : String
  secretValidated : Bool
  location : String
deriving DecidableEq, Repr

/-- Constructor `new BotConfig(secret)`: empty fields, unvalidated, remembering the secret. -/
def newBotConfig (secret : String) : BotConfig :=
  { name := "", secretKey := "", description := "", services := [],
    secret := secret, secretValidated := false, location := "" }

/-- The `encryptedProperties` table of the constructor, verbatim — including
the source's `'appPassord'` (sic) entry for `abs`. -/
def encryptedProperties : ServiceType → List String
  | .endpoint => ["appPassword"]
  | .abs => ["appPassord"]
  | .luis => ["authoringKey", "subscriptionKey"]
  | .qna => ["subscriptionKey"]
  | .dispatch => ["authoringKey", "subscriptionKey"]

/-- Source `internalEncrypt(value)`: `aes192` encryption with `internal.secret`. -/
def internalEncrypt (cipher : Cipher) (c : BotConfig) (value : String) : String :=
  cipher.enc c.secret value

/-- Source `internalDecrypt(encryptedValue)`: `aes192` decryption with
`internal.secret`; a cipher exception propagates to the caller. -/
def internalDecrypt (cipher : Cipher) (c : BotConfig) (encryptedValue : String) :
    Except BotError String :=
  match cipher.decTry c.secret encryptedValue with
  | some value => .ok value
  | none => .error .cryptoFailure

/-- Source `validateSecretKey()`: memoized; requires a supplied secret; with no stored
verifier, encrypts a fresh token (`uuid`) and stores it as `secretKey`
(bootstrap); otherwise tries to decrypt the stored verifier, mapping any
failure to the "--secret is incorrect" error. -/
def validateSecretKey (cipher : Cipher) (uuid : String) (c : BotConfig) :
    Except BotError BotConfig :=
  if c.secretValidated then .ok c
  else if c.secret = "" then .error .secretMissing
  else if c.secretKey = "" then
    .ok { c with secretKey := internalEncrypt cipher c uuid, secretValidated := true }
  else
    match cipher.decTry c.secret c.secretKey with
    | some _ => .ok { c with secretValidated := true }
    | none => .error .secretIncorrect

/-- Source `encryptValue(value)`: empty or absent values pass through; with a
non-empty stored verifier, validate the secret and encrypt. -/
def encryptValue (cipher : Cipher) (uuid : String) (c : BotConfig)
    (value : Option String) : Except BotError (Option String × BotConfig) :=
  match value with
  | none => .ok (none, c)
  | some v =>
    if v = "" then .ok (some v, c)
    else if c.secretKey ≠ "" then
      match validateSecretKey cipher uuid c with
      | .ok c1 => .ok (some (internalEncrypt cipher c1 v), c1)
      | .error e => .error e
    else .ok (some v, c)

/-- Source `decryptValue(encryptedValue)`: empty or absent values pass through; with a
non-empty stored verifier, validate the secret and decrypt. -/
def decryptValue (cipher : Cipher) (uuid : String) (c : BotConfig)
    (value : Option String) : Except BotError (Option String × BotConfig) :=
  match value with
  | none => .ok (none, c)
  | some v =>
    if v = "" then .ok (some v, c)
    else if c.secretKey ≠ "" then
      match validateSecretKey cipher uuid c with
      | .ok c1 =>
        match internalDecrypt cipher c1 v with
        | .ok p => .ok (some p, c1)
        | .error e => .error e
      | .error e => .error e
    else .ok (some v, c)

/-- The body of `encryptService`'s loop over `encryptedProperties[service.type]`:
read each designated key, encrypt it, write it back (writing `undefined` back
for an absent key leaves the object observationally unchanged). -/
def encryptProps (cipher : Cipher) (uuid : String) (c : BotConfig)
    (ps : List (String × String)) :
    List String → Except BotError (List (String × String) × BotConfig)
  | [] => .ok (ps, c)
  | key :: keys =>
    match encryptValue cipher uuid c (getProp ps key) with
    | .ok (newVal, c1) =>
      let ps1 := match newVal with
        | some v => setProp ps key v
        | none => ps
      encryptProps cipher uuid c1 ps1 keys
    | .error e => .error e

/-- The body of `decryptService`'s loop, symmetric to `encryptProps`. -/
def decryptProps (cipher : Cipher) (uuid : String) (c : BotConfig)
    (ps : List (String × String)) :
    List String → Except BotError (List (String × String) × BotConfig)
  | [] => .ok (ps, c)
  | key :: keys =>
    match decryptValue cipher uuid c (getProp ps key) with
    | .ok (newVal, c1) =>
      let ps1 := match newVal with
        | some v => setProp ps key v
        | none => ps
      decryptProps cipher uuid c1 ps1 keys
    | .error e => .error e

/-- Source `encryptService(service)`: encrypt each sensitive field of the service. -/
def encryptService (cipher : Cipher) (uuid : String) (c : BotConfig)
    (service : BotService) : Except BotError (BotService × BotConfig) :=
  match encryptProps cipher uuid c service.props (encryptedProperties service.type) with
  | .ok (ps, c1) => .ok ({ service with props := ps }, c1)
  | .error e => .error e

/-- Source `decryptService(service)`: decrypt each sensitive field of the service. -/
def decryptService (cipher : Cipher) (uuid : String) (c : BotConfig)
    (service : BotService) : Except BotError (BotService × BotConfig) :=
  match decryptProps cipher uuid c service.props (encryptedProperties service.type) with
  | .ok (ps, c1) => .ok ({ service with props := ps }, c1)
  | .error e => .error e

/-- Loop body of `encryptAll()`: encrypt each service in order. -/
def encryptServices (cipher : Cipher) (uuid : String) (c : BotConfig) :
    List BotService → Except BotError (List BotService × BotConfig)
  | [] => .ok ([], c)
  | s :: rest =>
    match encryptService cipher uuid c s with
    | .ok (s1, c1) =>
      match encryptServices cipher uuid c1 rest with
      | .ok (rest1, c2) => .ok (s1 :: rest1, c2)
      | .error e => .error e
    | .error e => .error e

/-- Loop body of `decryptAll()`: decrypt each service in order. -/
def decryptServices (cipher : Cipher) (uuid : String) (c : BotConfig) :
    List BotService → Except BotError (List BotService × BotConfig)
  | [] => .ok ([], c)
  | s :: rest =>
    match decryptService cipher uuid c s with
    | .ok (s1, c1) =>
      match decryptServices cipher uuid c1 rest with
      | .ok (rest1, c2) => .ok (s1 :: rest1, c2)
      | .error e => .error e
    | .error e => .error e

/-- Source `encryptAll()`: the in-place mutation of every service. -/
def encryptAll (cipher : Cipher) (uuid : String) (c : BotConfig) :
    Except BotError BotConfig :=
  match encryptServices cipher uuid c c.services with
  | .ok (svcs, c1) => .ok { c1 with services := svcs }
  | .error e => .error e

/-- Source `decryptAll()`: the in-place decryption of every service. -/
def decryptAll (cipher : Cipher) (uuid : String) (c : BotConfig) :
    Except BotError BotConfig :=
  match decryptServices cipher uuid c c.services with
  | .ok (svcs, c1) => .ok { c1 with services := svcs }
  | .error e => .error e

/-- The serialized document written by `Save`:
`{ name, description, secretKey, services }`. -/
structure SavedDoc where
  name : String
  description : String
  secretKey : String
  services : List BotService
deriving DecidableEq, Repr

/-- The target path of `Save`: `botpath || this.internal.location`
(JavaScript falsiness: an absent or empty `botpath` falls back). -/
def resolvePath (botpath : Option String) (location : String) : String :=
  match botpath with
  | some p => if p = "" then location else p
  | none => location

/-- Source `Save(botpath)`: when the stored verifier (`secretKey`) is non-empty,
encrypt all services, write the document, then decrypt the live services
back; otherwise write the document as-is.  Returns the target path, the
written document and the post-save state. -/
def Save (cipher : Cipher) (uuid : String) (botpath : Option String)
    (c : BotConfig) : Except BotError (String × SavedDoc × BotConfig) :=
  if c.secretKey ≠ "" then
    match encryptAll cipher uuid c with
    | .ok c1 =>
      let doc : SavedDoc := ⟨c1.name, c1.description, c1.secretKey, c1.services⟩
      let target := resolvePath botpath c1.location
      match decryptAll cipher uuid c1 with
      | .ok c2 => .ok (target, doc, c2)
      | .error e => .error e
    | .error e => .error e
  else
    .ok (resolvePath botpath c.location,
      ⟨c.name, c.description, c.secretKey, c.services⟩, c)

/-- Source `clearSecret()`: validate first, then empty the stored verifier. -/
def clearSecret (cipher : Cipher) (uuid : String) (c : BotConfig) :
    Except BotError BotConfig :=
  match validateSecretKey cipher uuid c with
  | .ok c1 => .ok { c1 with secretKey := "" }
  | .error e => .error e

/-- Returns `true` when some existing service already carries the candidate name. -/
def nameUsed (svcs : List BotService) (nm : String) : Bool :=
  svcs.any (fun s => s.name == nm)

/-- The collision candidate `` `${base} (${count})` `` of `connectService`. -/
def suffixedName (base : String) (count : Nat) : String :=
  base ++ " (" ++ Nat.repr count ++ ")"

/-- The `while (true)` naming loop of `connectService`, fuelled: at each turn
the candidate is the base name while `count = 1` and `` `${base} (${count})` ``
afterwards; the loop stops at the first unused candidate.  The fuel only
bounds the iteration count; `connectService` passes enough fuel for the
loop never to exhaust it (`uniqueName_spec` below). -/
def uniqueNameLoop (svcs : List BotService) (base : String) :
    Nat → Nat → String
  | 0, count => suffixedName base count
  | fuel + 1, count =>
    let nm := if count > 1 then suffixedName base count else base
    if nameUsed svcs nm then uniqueNameLoop svcs base fuel (count + 1)
    else nm

/-- The name assigned by `connectService`'s naming loop, started like the
source with `nameCount = 1` and the caller's name as first candidate. -/
def uniqueName (svcs : List BotService) (base : String) : String :=
  uniqueNameLoop svcs base (svcs.length + 2) 1

/-- Source `connectService(newService)`: reject a `(type, id)` duplicate; otherwise
write the assigned unique name into the caller's descriptor and push that
very descriptor.  The returned `BotService` is the caller's descriptor as
it stands after the call (the source mutates `newService.name` in place). -/
def connectService (c : BotConfig) (newService : BotService) :
    Except BotError (BotService × BotConfig) :=
  if c.services.any (fun s => s.type == newService.type && s.id == newService.id) then
    .error (.duplicateService newService.id)
  else
    let assigned := { newService with name := uniqueName c.services newService.name }
    .ok (assigned, { c with services := c.services ++ [assigned] })

/-- The scan of `disconnectService`: drop the first service matching both
type and id, keeping everything else; unchanged when nothing matches. -/
def removeFirstTypeId : List BotService → ServiceType → String → List BotService
  | [], _, _ => []
  | s :: rest, t, i =>
    if s.type = t ∧ s.id = i then rest else s :: removeFirstTypeId rest t i

/-- Source `disconnectService(type, id)`: remove the first match, silently no-op
when absent. -/
def disconnectService (c : BotConfig) (t : ServiceType) (i : String) : BotConfig :=
  { c with services := removeFirstTypeId c.services t i }

/-- The scan of `disconnectServiceByNameOrId`: drop the first service whose
id or name equals the token; `none` when nothing matches. -/
def removeFirstNameOrId : List BotService → String → Option (List BotService)
  | [], _ => none
  | s :: rest, tok =>
    if s.id = tok ∨ s.name = tok then some rest
    else (removeFirstNameOrId rest tok).map (fun l => s :: l)

/-- Source `disconnectServiceByNameOrId(nameOrId)`: remove the first service whose
id or name matches, throwing the "was not found" error otherwise. -/
def disconnectServiceByNameOrId (c : BotConfig) (tok : String) :
    Except BotError BotConfig :=
  match removeFirstNameOrId c.services tok with
  | some svcs => .ok { c with services := svcs }
  | none => .error (.serviceNotFound tok)

/-- A concrete cipher satisfying the library contract, used to evaluate the
theorems on closed inputs: encryption tags the plaintext with a leading
marker character, decryption strips it. -/
def testCipher : Cipher where
  enc := fun _ p => String.mk ('#' :: p.data)
  decTry := fun _ c =>
    match c.data with
    | '#' :: rest => some (String.mk rest)
    | _ => none
  roundtrip := by
    intro s p
    cases p
    rfl
  encNE := by
    intro s p h
    simp only [] at h
    have : (String.mk ('#' :: p.data)).data = ("" : String).data := congrArg String.data h
    simp at this

/-! ### Decimal rendering is injective

`connectService`'s naming loop distinguishes suffix counts through the string
`` `${base} (${count})` ``; the facts below (the decimal rendering `Nat.repr`
is injective, hence the candidate names are pairwise distinct) drive both the
termination of the loop within the provided fuel and the minimality of the
chosen suffix. -/

/-- The numeric value of a decimal digit character. -/
def decDigitVal (c : Char) : Nat := c.toNat - 48

/-- Reading a digit string back as a number, most significant digit first. -/
def decParse (l : List Char) : Nat :=
  l.foldl (fun a c => a * 10 + decDigitVal c) 0

theorem decDigitVal_digitChar (d : Nat) (h : d < 10) :
    decDigitVal (Nat.digitChar d) = d := by
  interval_cases d <;> rfl

theorem toDigitsCore_append (f : Nat) : ∀ n ds, n < 10 ^ f →
    Nat.toDigitsCore 10 f n ds = Nat.toDigitsCore 10 f n [] ++ ds := by
  induction f with
  | zero =>
    intro n ds h
    simp [Nat.toDigitsCore]
  | succ f ih =>
    intro n ds h
    by_cases h0 : n / 10 = 0
    · simp [Nat.toDigitsCore, h0]
    · have hlt : n / 10 < 10 ^ f := by
        rw [Nat.div_lt_iff_lt_mul (by norm_num : (0:Nat) < 10)]
        calc n < 10 ^ (f + 1) := h
        _ = 10 ^ f * 10 := by rw [pow_succ]
      simp only [Nat.toDigitsCore, h0, if_false]
      rw [ih (n / 10) (Nat.digitChar (n % 10) :: ds) hlt,
        ih (n / 10) [Nat.digitChar (n % 10)] hlt, List.append_assoc]
      rfl

theorem decParse_toDigitsCore (f : Nat) : ∀ n, n < 10 ^ f →
    decParse (Nat.toDigitsCore 10 f n []) = n := by
  induction f with
  | zero =>
    intro n h
    have : n = 0 := by omega
    subst this
    rfl
  | succ f ih =>
    intro n h
    by_cases h0 : n / 10 = 0
    · have hn : n < 10 := by omega
      simp [Nat.toDigitsCore, h0, decParse, decDigitVal_digitChar (n % 10) (by omega)]
      omega
    · have hlt : n / 10 < 10 ^ f := by
        rw [Nat.div_lt_iff_lt_mul (by norm_num : (0:Nat) < 10)]
        calc n < 10 ^ (f + 1) := h
        _ = 10 ^ f * 10 := by rw [pow_succ]
      simp only [Nat.toDigitsCore, h0, if_false]
      rw [toDigitsCore_append f (n / 10) [Nat.digitChar (n % 10)] hlt]
      simp only [decParse, List.foldl_append]
      have ihv := ih (n / 10) hlt
      simp only [decParse] at ihv
      rw [ihv]
      simp [decDigitVal_digitChar (n % 10) (by omega)]
      omega

theorem decParse_repr (n : Nat) : decParse (Nat.repr n).data = n := by
  have hfuel : n < 10 ^ (n + 1) := by
    calc n < 10 ^ n := Nat.lt_pow_self (by norm_num) n
    _ ≤ 10 ^ (n + 1) := Nat.pow_le_pow_right (by norm_num) (Nat.le_succ n)
  have : (Nat.repr n).data = Nat.toDigitsCore 10 (n + 1) n [] := rfl
  rw [this]
  exact decParse_toDigitsCore (n + 1) n hfuel

theorem natRepr_injective : Function.Injective Nat.repr := by
  intro m n h
  have h2 : decParse (Nat.repr m).data = decParse (Nat.repr n).data := by rw [h]
  rwa [decParse_repr, decParse_repr] at h2

theorem suffixedName_inj (base : String) {k j : Nat}
    (h : suffixedName base k = suffixedName base j) : k = j := by
  apply natRepr_injective
  apply String.ext
  have hd := congrArg String.data h
  simp only [suffixedName, String.data_append] at hd
  have h1 := List.append_cancel_right hd
  exact List.append_cancel_left h1

theorem nameUsed_iff (svcs : List BotService) (nm : String) :
    nameUsed svcs nm = true ↔ ∃ s ∈ svcs, s.name = nm := by
  simp [nameUsed, List.any_eq_true]

/-- Pigeonhole: among the `svcs.length + 1` pairwise-distinct candidate names
`` `${base} (${2+i})` ``, at least one is not carried by any of the
`svcs.length` services. -/
theorem exists_unusedSuffix (svcs : List BotService) (base : String) :
    ∃ i, i < svcs.length + 1 ∧
      nameUsed svcs (suffixedName base (2 + i)) = false := by
  by_contra hall
  push_neg at hall
  have hused : ∀ i, i < svcs.length + 1 →
      nameUsed svcs (suffixedName base (2 + i)) = true := by
    intro i hi
    have := hall i hi
    cases h : nameUsed svcs (suffixedName base (2 + i)) with
    | true => rfl
    | false => exact absurd h this
  set cands : List String :=
    (List.range (svcs.length + 1)).map (fun i => suffixedName base (2 + i)) with hcands
  have hnodup : cands.Nodup := by
    apply List.Nodup.map _ (List.nodup_range _)
    intro a b hab
    have := suffixedName_inj base hab
    omega
  have hsub : cands ⊆ svcs.map (fun s => s.name) := by
    intro nm hnm
    rw [hcands, List.mem_map] at hnm
    obtain ⟨i, hi, rfl⟩ := hnm
    rw [List.mem_range] at hi
    obtain ⟨s, hs, hsn⟩ := (nameUsed_iff svcs _).mp (hused i hi)
    exact List.mem_map.mpr ⟨s, hs, hsn⟩
  have hle : cands.length ≤ (svcs.map (fun s => s.name)).length :=
    (List.subperm_of_subset hnodup hsub).length_le
  simp [hcands] at hle

/-- The naming loop, run from a count of at least 2 with enough fuel to reach
an unused candidate, stops at the smallest unused suffix count. -/
theorem uniqueNameLoop_spec (svcs : List BotService) (base : String) :
    ∀ f c, 2 ≤ c →
    (∃ i, i < f ∧ nameUsed svcs (suffixedName base (c + i)) = false) →
    ∃ k, c ≤ k ∧ uniqueNameLoop svcs base f c = suffixedName base k ∧
      nameUsed svcs (suffixedName base k) = false ∧
      ∀ j, c ≤ j → j < k → nameUsed svcs (suffixedName base j) = true := by
  intro f
  induction f with
  | zero =>
    intro c _ hex
    obtain ⟨i, hi, _⟩ := hex
    omega
  | succ f ih =>
    intro c hc hex
    have hgt : c > 1 := hc
    cases hused : nameUsed svcs (suffixedName base c) with
    | false =>
      refine ⟨c, le_refl c, ?_, hused, fun j h1 h2 => by omega⟩
      simp [uniqueNameLoop, hgt, hused]
    | true =>
      have hstep : uniqueNameLoop svcs base (f + 1) c
          = uniqueNameLoop svcs base f (c + 1) := by
        simp [uniqueNameLoop, hgt, hused]
      obtain ⟨i, hi, hfree⟩ := hex
      have hi0 : i ≠ 0 := by
        intro h0
        subst h0
        simp at hfree
        rw [hused] at hfree
        exact absurd hfree (by simp)
      obtain ⟨i', rfl⟩ : ∃ i', i = i' + 1 := ⟨i - 1, by omega⟩
      have hex' : ∃ i, i < f ∧
          nameUsed svcs (suffixedName base (c + 1 + i)) = false := by
        refine ⟨i', by omega, ?_⟩
        have : c + 1 + i' = c + (i' + 1) := by omega
        rw [this]
        exact hfree
      obtain ⟨k, hk1, hk2, hk3, hk4⟩ := ih (c + 1) (by omega) hex'
      refine ⟨k, by omega, by rw [hstep]; exact hk2, hk3, ?_⟩
      intro j hj1 hj2
      by_cases hje : j = c
      · rw [hje]; exact hused
      · exact hk4 j (by omega) hj2

/-- The name actually assigned by `connectService`: the caller's name when it
does not collide, otherwise the smallest suffix `` `${base} (${k})` ``,
`k ≥ 2`, that collides with no existing service name. -/
theorem uniqueName_spec (svcs : List BotService) (base : String) :
    (nameUsed svcs base = false → uniqueName svcs base = base) ∧
    (nameUsed svcs base = true → ∃ k, 2 ≤ k ∧
      uniqueName svcs base = suffixedName base k ∧
      nameUsed svcs (suffixedName base k) = false ∧
      ∀ j, 2 ≤ j → j < k → nameUsed svcs (suffixedName base j) = true) := by
  constructor
  · intro hfree
    simp [uniqueName, uniqueNameLoop, hfree]
  · intro hused
    have hstep : uniqueName svcs base
        = uniqueNameLoop svcs base (svcs.length + 1) 2 := by
      simp [uniqueName, uniqueNameLoop, hused]
    obtain ⟨i, hi, hfree⟩ := exists_unusedSuffix svcs base
    obtain ⟨k, hk1, hk2, hk3, hk4⟩ := uniqueNameLoop_spec svcs base
      (svcs.length + 1) 2 (le_refl 2) ⟨i, hi, hfree⟩
    exact ⟨k, hk1, by rw [hstep]; exact hk2, hk3, hk4⟩

/-! ### Pure characterization of encryption under a validated secret

Once the secret has been validated, `encryptValue`/`decryptValue` neither
change the store state nor fail, so the service-level loops compute a pure
transformation of the property lists.  The definitions below name that
transformation; the lemmas identify it with the stateful code. -/

/-- What `encryptValue` does to a present value under a validated secret. -/
def encValPure (cipher : Cipher) (sec : String) (v : String) : String :=
  if v = "" then v else cipher.enc sec v

/-- What the `encryptService` loop does to the property list under a
validated secret. -/
def encPropsPure (cipher : Cipher) (sec : String)
    (ps : List (String × String)) (keys : List String) : List (String × String) :=
  keys.foldl
    (fun ps k =>
      match getProp ps k with
      | none => ps
      | some v => setProp ps k (encValPure cipher sec v)) ps

/-- What `encryptService` does to a service under a validated secret. -/
def encServicePure (cipher : Cipher) (sec : String) (s : BotService) : BotService :=
  { s with props := encPropsPure cipher sec s.props (encryptedProperties s.type) }

theorem getProp_setProp_self (ps : List (String × String)) (k w : String) :
    getProp (setProp ps k w) k = some w := by
  induction ps with
  | nil => simp [setProp, getProp]
  | cons p rest ih =>
    by_cases h : p.1 = k
    · simp [setProp, h, getProp]
    · simp [setProp, h, getProp, ih]

theorem getProp_setProp_ne (ps : List (String × String)) (k k' w : String)
    (h : k' ≠ k) : getProp (setProp ps k w) k' = getProp ps k' := by
  have hkk : ¬ k = k' := fun he => h he.symm
  induction ps with
  | nil => simp [setProp, getProp, hkk]
  | cons p rest ih =>
    obtain ⟨p1, p2⟩ := p
    by_cases hp : p1 = k
    · subst hp
      simp [setProp, getProp, hkk]
    · by_cases hp' : p1 = k'
      · simp [setProp, hp, getProp, hp', h]
      · simp [setProp, hp, getProp, hp', ih]

theorem setProp_setProp (ps : List (String × String)) (k w v : String) :
    setProp (setProp ps k w) k v = setProp ps k v := by
  induction ps with
  | nil => simp [setProp]
  | cons p rest ih =>
    by_cases h : p.1 = k
    · simp [setProp, h]
    · simp [setProp, h, ih]

theorem setProp_getProp_eq (ps : List (String × String)) (k v : String)
    (h : getProp ps k = some v) : setProp ps k v = ps := by
  induction ps with
  | nil => simp [getProp] at h
  | cons p rest ih =>
    by_cases hp : p.1 = k
    · rw [getProp] at h
      simp [hp] at h
      obtain ⟨p1, p2⟩ := p
      simp at hp
      subst hp
      simp at h
      simp [setProp, h]
    · rw [getProp] at h
      simp [hp] at h
      simp [setProp, hp, ih h]

theorem setProp_comm_of_present (ps : List (String × String)) (a b x y u : String)
    (hab : a ≠ b) (ha : getProp ps a = some u) :
    setProp (setProp ps a x) b y = setProp (setProp ps b y) a x := by
  have hba : ¬ b = a := fun he => hab he.symm
  induction ps with
  | nil => simp [getProp] at ha
  | cons p rest ih =>
    obtain ⟨p1, p2⟩ := p
    by_cases hpa : p1 = a
    · subst hpa
      have hpb : ¬ p1 = b := fun he => hab he
      simp [setProp, hpb, hab, hba]
    · by_cases hpb : p1 = b
      · subst hpb
        simp [setProp, hpa, hab, hba]
      · rw [getProp] at ha
        simp [hpa] at ha
        simp [setProp, hpa, hpb, ih ha]

theorem validateSecretKey_validated (cipher : Cipher) (uuid : String)
    (c : BotConfig) (hv : c.secretValidated = true) :
    validateSecretKey cipher uuid c = .ok c := by
  simp [validateSecretKey, hv]

theorem encryptValue_validated (cipher : Cipher) (uuid : String) (c : BotConfig)
    (hv : c.secretValidated = true) (hk : c.secretKey ≠ "") (v : Option String) :
    encryptValue cipher uuid c v
      = .ok (v.map (encValPure cipher c.secret), c) := by
  cases v with
  | none => simp [encryptValue]
  | some s =>
    by_cases hs : s = ""
    · simp [encryptValue, hs, encValPure]
    · simp [encryptValue, hs, hk, validateSecretKey_validated cipher uuid c hv,
        encValPure, internalEncrypt]

theorem decryptValue_encValPure (cipher : Cipher) (uuid : String) (c : BotConfig)
    (hv : c.secretValidated = true) (hk : c.secretKey ≠ "") (v : String) :
    decryptValue cipher uuid c (some (encValPure cipher c.secret v))
      = .ok (some v, c) := by
  by_cases hs : v = ""
  · simp [decryptValue, encValPure, hs]
  · have hne : cipher.enc c.secret v ≠ "" := cipher.encNE c.secret v
    simp [decryptValue, encValPure, hs, hne, hk,
      validateSecretKey_validated cipher uuid c hv, internalDecrypt,
      cipher.roundtrip c.secret v]

theorem encryptProps_validated (cipher : Cipher) (uuid : String) (c : BotConfig)
    (hv : c.secretValidated = true) (hk : c.secretKey ≠ "") :
    ∀ (keys : List String) (ps : List (String × String)),
    encryptProps cipher uuid c ps keys
      = .ok (encPropsPure cipher c.secret ps keys, c) := by
  intro keys
  induction keys with
  | nil => intro ps; rfl
  | cons key rest ih =>
    intro ps
    rw [encryptProps, encryptValue_validated cipher uuid c hv hk]
    cases hgp : getProp ps key with
    | none =>
      show encryptProps cipher uuid c ps rest = _
      rw [ih]
      simp only [encPropsPure, List.foldl_cons, hgp]
    | some v =>
      show encryptProps cipher uuid c
        (setProp ps key (encValPure cipher c.secret v)) rest = _
      rw [ih]
      simp only [encPropsPure, List.foldl_cons, hgp]

theorem decryptProps_one (cipher : Cipher) (uuid : String) (c : BotConfig)
    (hv : c.secretValidated = true) (hk : c.secretKey ≠ "")
    (ps : List (String × String)) (k : String) :
    decryptProps cipher uuid c (encPropsPure cipher c.secret ps [k]) [k]
      = .ok (ps, c) := by
  cases hgp : getProp ps k with
  | none =>
    simp only [encPropsPure, List.foldl_cons, List.foldl_nil, hgp]
    rw [decryptProps, hgp]
    simp [decryptValue, decryptProps]
  | some v =>
    simp only [encPropsPure, List.foldl_cons, List.foldl_nil, hgp]
    rw [decryptProps, getProp_setProp_self,
      decryptValue_encValPure cipher uuid c hv hk v]
    simp only [setProp_setProp, setProp_getProp_eq ps k v hgp]
    rfl

theorem decryptProps_two (cipher : Cipher) (uuid : String) (c : BotConfig)
    (hv : c.secretValidated = true) (hk : c.secretKey ≠ "")
    (ps : List (String × String)) (k1 k2 : String) (hne : k1 ≠ k2) :
    decryptProps cipher uuid c (encPropsPure cipher c.secret ps [k1, k2]) [k1, k2]
      = .ok (ps, c) := by
  have hne' : k2 ≠ k1 := fun h => hne h.symm
  cases hgp1 : getProp ps k1 with
  | none =>
    cases hgp2 : getProp ps k2 with
    | none =>
      simp only [encPropsPure, List.foldl_cons, List.foldl_nil, hgp1, hgp2]
      rw [decryptProps, hgp1]
      simp only [decryptValue]
      rw [decryptProps, hgp2]
      simp [decryptValue, decryptProps]
    | some v2 =>
      simp only [encPropsPure, List.foldl_cons, List.foldl_nil, hgp1, hgp2]
      rw [decryptProps, getProp_setProp_ne ps k2 k1 _ hne, hgp1]
      simp only [decryptValue]
      rw [decryptProps, getProp_setProp_self,
        decryptValue_encValPure cipher uuid c hv hk v2]
      simp only [setProp_setProp, setProp_getProp_eq ps k2 v2 hgp2]
      rfl
  | some v1 =>
    cases hgp2 : getProp ps k2 with
    | none =>
      simp only [encPropsPure, List.foldl_cons, List.foldl_nil, hgp1,
        getProp_setProp_ne ps k1 k2 _ hne', hgp2]
      rw [decryptProps, getProp_setProp_self,
        decryptValue_encValPure cipher uuid c hv hk v1]
      simp only [setProp_setProp, setProp_getProp_eq ps k1 v1 hgp1]
      rw [decryptProps, hgp2]
      simp [decryptValue, decryptProps]
    | some v2 =>
      have hpres : getProp (setProp ps k1 (encValPure cipher c.secret v1)) k2
          = some v2 := by rw [getProp_setProp_ne ps k1 k2 _ hne', hgp2]
      have hz1 : getProp
          (setProp (setProp ps k1 (encValPure cipher c.secret v1)) k2
            (encValPure cipher c.secret v2)) k1
          = some (encValPure cipher c.secret v1) := by
        rw [getProp_setProp_ne _ k2 k1 _ hne, getProp_setProp_self]
      simp only [encPropsPure, List.foldl_cons, List.foldl_nil, hgp1,
        getProp_setProp_ne ps k1 k2 _ hne', hgp2]
      simp only [decryptProps, hz1,
        decryptValue_encValPure cipher uuid c hv hk v1]
      have hq1 : setProp
          (setProp (setProp ps k1 (encValPure cipher c.secret v1)) k2
            (encValPure cipher c.secret v2)) k1 v1
          = setProp ps k2 (encValPure cipher c.secret v2) := by
        rw [setProp_comm_of_present _ k2 k1 _ _ v2 hne' hpres,
          setProp_setProp, setProp_getProp_eq ps k1 v1 hgp1]
      rw [hq1]
      simp only [decryptProps, getProp_setProp_self,
        decryptValue_encValPure cipher uuid c hv hk v2, setProp_setProp,
        setProp_getProp_eq ps k2 v2 hgp2]

theorem encryptService_validated (cipher : Cipher) (uuid : String)
    (c : BotConfig) (hv : c.secretValidated = true) (hk : c.secretKey ≠ "")
    (s : BotService) :
    encryptService cipher uuid c s = .ok (encServicePure cipher c.secret s, c) := by
  rw [encryptService, encryptProps_validated cipher uuid c hv hk]
  rfl

theorem decryptService_encServicePure (cipher : Cipher) (uuid : String)
    (c : BotConfig) (hv : c.secretValidated = true) (hk : c.secretKey ≠ "")
    (s : BotService) :
    decryptService cipher uuid c (encServicePure cipher c.secret s)
      = .ok (s, c) := by
  obtain ⟨ty, i, nm, ps⟩ := s
  cases ty with
  | endpoint =>
    simp only [decryptService, encServicePure, encryptedProperties]
    rw [decryptProps_one cipher uuid c hv hk]
  | abs =>
    simp only [decryptService, encServicePure, encryptedProperties]
    rw [decryptProps_one cipher uuid c hv hk]
  | luis =>
    simp only [decryptService, encServicePure, encryptedProperties]
    rw [decryptProps_two cipher uuid c hv hk _ _ _ (by decide)]
  | qna =>
    simp only [decryptService, encServicePure, encryptedProperties]
    rw [decryptProps_one cipher uuid c hv hk]
  | dispatch =>
    simp only [decryptService, encServicePure, encryptedProperties]
    rw [decryptProps_two cipher uuid c hv hk _ _ _ (by decide)]

theorem encryptServices_validated (cipher : Cipher) (uuid : String)
    (c : BotConfig) (hv : c.secretValidated = true) (hk : c.secretKey ≠ "") :
    ∀ svcs : List BotService,
    encryptServices cipher uuid c svcs
      = .ok (svcs.map (encServicePure cipher c.secret), c) := by
  intro svcs
  induction svcs with
  | nil => rfl
  | cons s rest ih =>
    rw [encryptServices, encryptService_validated cipher uuid c hv hk]
    show (match encryptServices cipher uuid c rest with
      | Except.ok (rest1, c2) =>
        Except.ok (encServicePure cipher c.secret s :: rest1, c2)
      | Except.error e => (Except.error e : Except BotError (List BotService × BotConfig))) = _
    rw [ih]
    rfl

theorem decryptServices_restore (cipher : Cipher) (uuid : String)
    (c : BotConfig) (hv : c.secretValidated = true) (hk : c.secretKey ≠ "") :
    ∀ svcs : List BotService,
    decryptServices cipher uuid c (svcs.map (encServicePure cipher c.secret))
      = .ok (svcs, c) := by
  intro svcs
  induction svcs with
  | nil => rfl
  | cons s rest ih =>
    show (match decryptService cipher uuid c (encServicePure cipher c.secret s) with
      | Except.ok (s1, c1) =>
        match decryptServices cipher uuid c1
            (rest.map (encServicePure cipher c.secret)) with
        | Except.ok (rest1, c2) => Except.ok (s1 :: rest1, c2)
        | Except.error e => Except.error e
      | Except.error e => (Except.error e : Except BotError (List BotService × BotConfig))) = _
    rw [decryptService_encServicePure cipher uuid c hv hk]
    show (match decryptServices cipher uuid c
        (rest.map (encServicePure cipher c.secret)) with
      | Except.ok (rest1, c2) => Except.ok (s :: rest1, c2)
      | Except.error e => (Except.error e : Except BotError (List BotService × BotConfig))) = _
    rw [ih]

theorem encryptAll_validated (cipher : Cipher) (uuid : String) (c : BotConfig)
    (hv : c.secretValidated = true) (hk : c.secretKey ≠ "") :
    encryptAll cipher uuid c
      = .ok { c with services := c.services.map (encServicePure cipher c.secret) } := by
  rw [encryptAll, encryptServices_validated cipher uuid c hv hk]

/-- After `encryptAll`, `decryptAll` restores the exact original store. -/
theorem decryptAll_encryptAll (cipher : Cipher) (uuid : String) (c : BotConfig)
    (hv : c.secretValidated = true) (hk : c.secretKey ≠ "") :
    decryptAll cipher uuid
      { c with services := c.services.map (encServicePure cipher c.secret) }
      = .ok c := by
  set c1 : BotConfig :=
    { c with services := c.services.map (encServicePure cipher c.secret) } with hc1
  have hv1 : c1.secretValidated = true := hv
  have hk1 : c1.secretKey ≠ "" := hk
  have hsvc : c1.services = c.services.map (encServicePure cipher c1.secret) := rfl
  rw [decryptAll, hsvc, decryptServices_restore cipher uuid c1 hv1 hk1]

/-- Running `Save` under a validated non-empty verifier: the written document carries
the metadata, the verifier and the encrypted services, and the store ends up
exactly as it started. -/
theorem Save_validated (cipher : Cipher) (uuid : String) (botpath : Option String)
    (c : BotConfig) (hv : c.secretValidated = true) (hk : c.secretKey ≠ "") :
    Save cipher uuid botpath c
      = .ok (resolvePath botpath c.location,
        ⟨c.name, c.description, c.secretKey,
          c.services.map (encServicePure cipher c.secret)⟩, c) := by
  rw [Save, if_pos hk, encryptAll_validated cipher uuid c hv hk]
  show (match decryptAll cipher uuid
      { c with services := c.services.map (encServicePure cipher c.secret) } with
    | Except.ok c2 =>
      Except.ok (resolvePath botpath c.location,
        (⟨c.name, c.description, c.secretKey,
          c.services.map (encServicePure cipher c.secret)⟩ : SavedDoc), c2)
    | Except.error e => (Except.error e : Except BotError (String × SavedDoc × BotConfig))) = _
  rw [decryptAll_encryptAll cipher uuid c hv hk]

instance exceptDecEq {ε α : Type} [DecidableEq ε] [DecidableEq α] :
    DecidableEq (Except ε α)
  | .ok a, .ok b =>
    if h : a = b then isTrue (by rw [h])
    else isFalse (by intro he; injection he; contradiction)
  | .ok _, .error _ => isFalse (by intro h; exact Except.noConfusion h)
  | .error _, .ok _ => isFalse (by intro h; exact Except.noConfusion h)
  | .error e, .error f =>
    if h : e = f then isTrue (by rw [h])
    else isFalse (by intro he; injection he; contradiction)

theorem removeFirstTypeId_not_mem (t : ServiceType) (i : String) :
    ∀ svcs : List BotService, (∀ s ∈ svcs, ¬(s.type = t ∧ s.id = i)) →
    removeFirstTypeId svcs t i = svcs := by
  intro svcs
  induction svcs with
  | nil => intro _; rfl
  | cons s rest ih =>
    intro h
    have hs := h s (List.mem_cons_self s rest)
    rw [removeFirstTypeId, if_neg hs, ih (fun x hx => h x (List.mem_cons_of_mem s hx))]

theorem removeFirstTypeId_first (t : ServiceType) (i : String)
    (m : BotService) (hmt : m.type = t) (hmi : m.id = i) :
    ∀ pre post, (∀ x ∈ pre, ¬(x.type = t ∧ x.id = i)) →
    removeFirstTypeId (pre ++ m :: post) t i = pre ++ post := by
  intro pre
  induction pre with
  | nil =>
    intro post _
    simp only [List.nil_append, removeFirstTypeId, if_pos (And.intro hmt hmi)]
  | cons x rest ih =>
    intro post h
    have hx := h x (List.mem_cons_self x rest)
    simp only [List.cons_append, removeFirstTypeId, if_neg hx, List.append_eq]
    rw [ih post (fun y hy => h y (List.mem_cons_of_mem x hy))]

theorem removeFirstNameOrId_not_mem (tok : String) :
    ∀ svcs : List BotService, (∀ s ∈ svcs, ¬(s.id = tok ∨ s.name = tok)) →
    removeFirstNameOrId svcs tok = none := by
  intro svcs
  induction svcs with
  | nil => intro _; rfl
  | cons s rest ih =>
    intro h
    have hs := h s (List.mem_cons_self s rest)
    rw [removeFirstNameOrId, if_neg hs,
      ih (fun x hx => h x (List.mem_cons_of_mem s hx))]
    rfl

theorem removeFirstNameOrId_first (tok : String)
    (m : BotService) (hm : m.id = tok ∨ m.name = tok) :
    ∀ pre post, (∀ x ∈ pre, ¬(x.id = tok ∨ x.name = tok)) →
    removeFirstNameOrId (pre ++ m :: post) tok = some (pre ++ post) := by
  intro pre
  induction pre with
  | nil =>
    intro post _
    simp only [List.nil_append, removeFirstNameOrId, if_pos hm]
  | cons x rest ih =>
    intro post h
    have hx := h x (List.mem_cons_self x rest)
    simp only [List.cons_append, removeFirstNameOrId, if_neg hx, List.append_eq]
    rw [ih post (fun y hy => h y (List.mem_cons_of_mem x hy))]
    rfl

/-- A successful validation always leaves the validated flag set and the
in-memory secret untouched. -/
theorem validateSecretKey_ok_state (cipher : Cipher) (uuid : String)
    (c cv : BotConfig) (h : validateSecretKey cipher uuid c = .ok cv) :
    cv.secretValidated = true ∧ cv.secret = c.secret := by
  rw [validateSecretKey] at h
  by_cases h1 : c.secretValidated
  · rw [if_pos h1] at h
    injection h with h
    subst h
    exact ⟨h1, rfl⟩
  · rw [if_neg h1] at h
    by_cases h2 : c.secret = ""
    · rw [if_pos h2] at h
      exact absurd h (by intro hh; exact Except.noConfusion hh)
    · rw [if_neg h2] at h
      by_cases h3 : c.secretKey = ""
      · rw [if_pos h3] at h
        injection h with h
        subst h
        exact ⟨rfl, rfl⟩
      · rw [if_neg h3] at h
        cases hdec : cipher.decTry c.secret c.secretKey with
        | some v =>
          rw [hdec] at h
          injection h with h
          subst h
          exact ⟨rfl, rfl⟩
        | none =>
          rw [hdec] at h
          exact absurd h (by intro hh; exact Except.noConfusion hh)

/-! ### Concrete fixtures for witnesses and counterexamples -/

/-- An endpoint service with a password, for concrete evaluations. -/
def epSvc (i nm pw : String) : BotService :=
  ⟨.endpoint, i, nm, [("appPassword", pw)]⟩

/-- A store whose secret `"abc"` has been validated (verifier `"#tok"`
is `testCipher.enc "abc" "tok"`). -/
def cfgValidated : BotConfig :=
  { newBotConfig "abc" with secretKey := "#tok", secretValidated := true }

/-- The state after `clearSecret()` on a fresh store with secret `"abc"`:
verifier emptied, secret kept, validation flag kept. -/
def cfgAfterClear : BotConfig :=
  { newBotConfig "abc" with secretValidated := true }

/-! ### The claims -/

/-- Claim C1 is false on the code: after a successful `clearSecret()` on a
fresh store with secret `"abc"`, `encryptValue`/`decryptValue` on the
non-empty value `"pw"` do NOT raise `SecretRequiredError` — they return the
value unchanged without any error — and the in-memory secret is NOT set to
empty (it is still `"abc"`); only the verifier is emptied. -/
theorem C1_counterexample :
    clearSecret testCipher "tok" (newBotConfig "abc") = .ok cfgAfterClear ∧
    cfgAfterClear.secret = "abc" ∧
    cfgAfterClear.secretKey = "" ∧
    encryptValue testCipher "tok" cfgAfterClear (some "pw")
      = .ok (some "pw", cfgAfterClear) ∧
    decryptValue testCipher "tok" cfgAfterClear (some "pw")
      = .ok (some "pw", cfgAfterClear) := by
  decide

/-- Claim C1 (amended): `clearSecret` requires successful validation (it calls
`validateSecretKey`) and then empties only the stored verifier (`secretKey`),
keeping the in-memory secret and the validated flag; afterwards — exactly as
on any store whose verifier is empty — `encryptValue`/`decryptValue` on a
non-empty value pass it through unchanged without raising any error
(the documented plaintext mode), rather than raising `SecretRequiredError`. -/
theorem C1_clearSecret_plaintext_mode (cipher : Cipher) (uuid : String)
    (c c1 : BotConfig) (h : clearSecret cipher uuid c = .ok c1) :
    (∃ cv, validateSecretKey cipher uuid c = .ok cv ∧
      c1 = { cv with secretKey := "" }) ∧
    c1.secretKey = "" ∧ c1.secret = c.secret ∧ c1.secretValidated = true ∧
    (∀ v : String, v ≠ "" →
      encryptValue cipher uuid c1 (some v) = .ok (some v, c1) ∧
      decryptValue cipher uuid c1 (some v) = .ok (some v, c1)) ∧
    (∀ d : BotConfig, d.secretKey = "" → ∀ v : String, v ≠ "" →
      encryptValue cipher uuid d (some v) = .ok (some v, d) ∧
      decryptValue cipher uuid d (some v) = .ok (some v, d)) := by
  rw [clearSecret] at h
  cases hval : validateSecretKey cipher uuid c with
  | error e =>
    rw [hval] at h
    exact absurd h (by intro hh; exact Except.noConfusion hh)
  | ok cv =>
    rw [hval] at h
    injection h with h
    subst h
    obtain ⟨hv, hs⟩ := validateSecretKey_ok_state cipher uuid c cv hval
    refine ⟨⟨cv, rfl, rfl⟩, rfl, hs, hv, ?_, ?_⟩
    · intro v hvne
      constructor
      · simp [encryptValue, hvne]
      · simp [decryptValue, hvne]
    · intro d hd v hvne
      constructor
      · simp [encryptValue, hvne, hd]
      · simp [decryptValue, hvne, hd]

/-- Witness for the amended C1: applied to the fresh store with secret
`"abc"`, whose `clearSecret` succeeds, the pass-through behaviour holds. -/
theorem C1_clearSecret_plaintext_mode_witness :
    encryptValue testCipher "tok" cfgAfterClear (some "pw")
      = .ok (some "pw", cfgAfterClear) := by
  have h := C1_clearSecret_plaintext_mode testCipher "tok" (newBotConfig "abc")
    cfgAfterClear (by decide)
  exact (h.2.2.2.2.1 "pw" (by decide)).1

/-- The abs (bot-service) descriptor with a real `appPassword`, which the
source's typo leaves untouched. -/
def absSvcPw : BotService := ⟨.abs, "botId", "mybot", [("appPassword", "pw")]⟩

/-- Claim C2: code bug.  The source's `encryptedProperties` table spells the
`abs` sensitive field `'appPassord'` (sic), so `encryptService` on an `abs`
service with a non-empty `appPassword` leaves that field in plaintext (the
service and store come back completely unchanged), while the identically
shaped `endpoint` service has its `appPassword` replaced by ciphertext. -/
theorem C2_abs_appPassword_not_encrypted :
    encryptService testCipher "u" cfgValidated absSvcPw
      = .ok (absSvcPw, cfgValidated) ∧
    getProp absSvcPw.props "appPassword" = some "pw" ∧
    encryptedProperties .abs = ["appPassord"] ∧
    getProp absSvcPw.props "appPassord" = none ∧
    encryptService testCipher "u" cfgValidated
      ⟨.endpoint, "botId", "mybot", [("appPassword", "pw")]⟩
      = .ok (⟨.endpoint, "botId", "mybot", [("appPassword", "#pw")]⟩,
        cfgValidated) := by
  decide

/-- A store holding a non-empty secret `"abc"` that was never validated, so
its verifier is still empty, with one endpoint service. -/
def cfgSecretNoVerifier : BotConfig :=
  { newBotConfig "abc" with services := [epSvc "e1" "myep" "pw"] }

/-- Claim C3 is false on the code as stated: this store currently has the
non-empty secret `"abc"`, yet `Save` serializes the service list as-is —
the written document still carries the plaintext `appPassword` `"pw"` —
because the code keys the encryption step on the stored verifier
(`secretKey`), which is empty here, not on the secret. -/
theorem C3_counterexample :
    cfgSecretNoVerifier.secret = "abc" ∧
    Save testCipher "u" none cfgSecretNoVerifier
      = .ok ("", ⟨"", "", "", [epSvc "e1" "myep" "pw"]⟩,
        cfgSecretNoVerifier) := by
  decide

/-- Claim C3 (amended): `Save(path?)` keys on the stored verifier, not the
secret.  If `secretKey` is empty the document `{name, description, secretKey,
services}` is written to `path || location` with the services exactly as they
are, the store unchanged.  If `secretKey` is non-empty (and the secret is
validated), the written document carries every service with its sensitive
fields encrypted, and the live store afterwards is exactly the original —
plaintext in memory as before the save. -/
theorem C3_save_keyed_on_verifier (cipher : Cipher) (uuid : String)
    (botpath : Option String) (c : BotConfig) :
    (c.secretKey = "" →
      Save cipher uuid botpath c
        = .ok (resolvePath botpath c.location,
          ⟨c.name, c.description, c.secretKey, c.services⟩, c)) ∧
    (c.secretKey ≠ "" → c.secretValidated = true →
      Save cipher uuid botpath c
        = .ok (resolvePath botpath c.location,
          ⟨c.name, c.description, c.secretKey,
            c.services.map (encServicePure cipher c.secret)⟩, c)) := by
  constructor
  · intro h
    rw [Save, if_neg (fun hh => hh h)]
  · intro hk hv
    exact Save_validated cipher uuid botpath c hv hk

/-- A validated store with a verifier and one endpoint service, for the
encrypting branch of `Save`. -/
def cfgValidatedSvc : BotConfig :=
  { cfgValidated with services := [epSvc "e1" "myep" "pw"] }

/-- Witness for the amended C3: both branches evaluated on concrete stores —
the empty-verifier store writes plaintext, the validated store writes
ciphertext and comes back unchanged. -/
theorem C3_save_keyed_on_verifier_witness :
    Save testCipher "u" none cfgSecretNoVerifier
      = .ok ("", ⟨"", "", "", [epSvc "e1" "myep" "pw"]⟩, cfgSecretNoVerifier) ∧
    Save testCipher "u" none cfgValidatedSvc
      = .ok ("", ⟨"", "", "#tok", [epSvc "e1" "myep" "#pw"]⟩, cfgValidatedSvc) := by
  constructor
  · have h := (C3_save_keyed_on_verifier testCipher "u" none cfgSecretNoVerifier).1
      (by decide)
    rw [h]
    decide
  · have h := (C3_save_keyed_on_verifier testCipher "u" none cfgValidatedSvc).2
      (by decide) (by decide)
    rw [h]
    decide

/-- Claim C4: on a store with no verifier yet, an unvalidated state and a
non-empty secret, the first `validateSecretKey` call succeeds, stores the
fresh token `uuid` encrypted with the secret as the (non-empty) verifier and
sets the validated flag; every later call on a validated store returns the
store unchanged without error. -/
theorem C4_validate_bootstrap (cipher : Cipher) (uuid : String) (c : BotConfig)
    (hnv : c.secretValidated = false) (hs : c.secret ≠ "") (hk : c.secretKey = "") :
    validateSecretKey cipher uuid c
      = .ok { c with secretKey := internalEncrypt cipher c uuid, secretValidated := true } ∧
    internalEncrypt cipher c uuid ≠ "" ∧
    validateSecretKey cipher uuid
      { c with secretKey := internalEncrypt cipher c uuid, secretValidated := true }
      = .ok { c with secretKey := internalEncrypt cipher c uuid, secretValidated := true } ∧
    (∀ d : BotConfig, d.secretValidated = true →
      validateSecretKey cipher uuid d = .ok d) := by
  refine ⟨by simp [validateSecretKey, hnv, hs, hk], cipher.encNE c.secret uuid,
    validateSecretKey_validated cipher uuid _ rfl,
    fun d hd => validateSecretKey_validated cipher uuid d hd⟩

/-- Witness for C4: the fresh store with secret `"abc"` bootstraps the
verifier `"#tok"` on its first validation. -/
theorem C4_validate_bootstrap_witness :
    validateSecretKey testCipher "tok" (newBotConfig "abc")
      = .ok { newBotConfig "abc" with secretKey := "#tok", secretValidated := true } := by
  have h := (C4_validate_bootstrap testCipher "tok" (newBotConfig "abc")
    rfl (by decide) rfl).1
  rw [h]
  decide

/-- Claim C5: whenever some already-connected service has the same type and
the same id as the new descriptor, `connectService` throws the
"already connected" (duplicate-service) error — names play no role — and,
since the duplicate check precedes any mutation, no state is produced. -/
theorem C5_duplicate_type_id (c : BotConfig) (n m : BotService)
    (hm : m ∈ c.services) (ht : m.type = n.type) (hi : m.id = n.id) :
    connectService c n = .error (.duplicateService n.id) ∧
    (BotError.duplicateService n.id).message
      = "service with " ++ n.id ++ " already connected" := by
  have hc : c.services.any (fun s => s.type == n.type && s.id == n.id) = true := by
    rw [List.any_eq_true]
    exact ⟨m, hm, by simp [ht, hi]⟩
  exact ⟨by simp [connectService, hc], rfl⟩

/-- Witness for C5: two endpoint services with equal `(type, id)` but
different names collide. -/
theorem C5_duplicate_type_id_witness :
    connectService { newBotConfig "" with services := [epSvc "e1" "Foo" "x"] }
      (epSvc "e1" "Bar" "y") = .error (.duplicateService "e1") :=
  (C5_duplicate_type_id _ (epSvc "e1" "Bar" "y") (epSvc "e1" "Foo" "x")
    (List.mem_cons_self _ _) rfl rfl).1

/-- Claim C6: when no `(type, id)` duplicate blocks it, `connectService`
appends the descriptor under the name chosen by the naming loop:
the caller's name if no existing service carries it, otherwise
`` `${name} (${k})` `` for the smallest `k ≥ 2` whose suffixed form is unused
(every smaller suffix count ≥ 2 being in use). -/
theorem C6_autoSuffix_naming (c : BotConfig) (n : BotService)
    (hdup : c.services.any (fun s => s.type == n.type && s.id == n.id) = false) :
    connectService c n
      = .ok ({ n with name := uniqueName c.services n.name },
        { c with services :=
          c.services ++ [{ n with name := uniqueName c.services n.name }] }) ∧
    (nameUsed c.services n.name = false → uniqueName c.services n.name = n.name) ∧
    (nameUsed c.services n.name = true → ∃ k, 2 ≤ k ∧
      uniqueName c.services n.name = suffixedName n.name k ∧
      nameUsed c.services (suffixedName n.name k) = false ∧
      ∀ j, 2 ≤ j → j < k →
        nameUsed c.services (suffixedName n.name j) = true) := by
  refine ⟨?_, (uniqueName_spec c.services n.name).1,
    (uniqueName_spec c.services n.name).2⟩
  simp [connectService, hdup]

/-- A store already holding `"Foo"` and `"Foo (2)"`. -/
def cfgFoo2 : BotConfig :=
  { newBotConfig "" with services := [epSvc "e1" "Foo" "x", epSvc "e2" "Foo (2)" "y"] }

/-- Witness for C6: connecting a third `"Foo"` to a store holding `"Foo"` and
`"Foo (2)"` stores it as `"Foo (3)"`. -/
theorem C6_autoSuffix_naming_witness :
    connectService cfgFoo2 (epSvc "e3" "Foo" "z")
      = .ok (⟨.endpoint, "e3", "Foo (3)", [("appPassword", "z")]⟩,
        { cfgFoo2 with services :=
          cfgFoo2.services ++ [⟨.endpoint, "e3", "Foo (3)", [("appPassword", "z")]⟩] }) := by
  have h := (C6_autoSuffix_naming cfgFoo2 (epSvc "e3" "Foo" "z") (by decide)).1
  rw [h]
  decide

/-- Claim C7: `disconnectService(type, id)` removes exactly the first service
matching both the type and the id, and is a silent no-op — the store comes
back unchanged, no error — when no service matches. -/
theorem C7_disconnect_first_or_noop (c : BotConfig) (t : ServiceType) (i : String) :
    ((∀ s ∈ c.services, ¬(s.type = t ∧ s.id = i)) → disconnectService c t i = c) ∧
    (∀ pre m post, c.services = pre ++ m :: post → m.type = t → m.id = i →
      (∀ x ∈ pre, ¬(x.type = t ∧ x.id = i)) →
      disconnectService c t i = { c with services := pre ++ post }) := by
  constructor
  · intro h
    rw [disconnectService, removeFirstTypeId_not_mem t i c.services h]
  · intro pre m post hsv hmt hmi hpre
    rw [disconnectService, hsv, removeFirstTypeId_first t i m hmt hmi pre post hpre]

/-- A two-service store used by the disconnect witnesses. -/
def cfgTwo : BotConfig :=
  { newBotConfig "" with services := [epSvc "e1" "Foo" "x", epSvc "e2" "Bar" "y"] }

/-- Witness for C7: removing the matching `(endpoint, "e2")` drops exactly
that service; a `(luis, "zz")` disconnect is a no-op. -/
theorem C7_disconnect_first_or_noop_witness :
    disconnectService cfgTwo .endpoint "e2"
      = { cfgTwo with services := [epSvc "e1" "Foo" "x"] } ∧
    disconnectService cfgTwo .luis "zz" = cfgTwo := by
  constructor
  · have h := (C7_disconnect_first_or_noop cfgTwo .endpoint "e2").2
      [epSvc "e1" "Foo" "x"] (epSvc "e2" "Bar" "y") [] rfl rfl rfl (by decide)
    rw [h]
    decide
  · exact (C7_disconnect_first_or_noop cfgTwo .luis "zz").1 (by decide)

/-- Claim C8: `disconnectServiceByNameOrId(token)` removes exactly the first
service whose id or name equals the token, and throws the
"was not found" error, leaving no altered store, when none matches. -/
theorem C8_disconnectByNameOrId (c : BotConfig) (tok : String) :
    ((∀ s ∈ c.services, ¬(s.id = tok ∨ s.name = tok)) →
      disconnectServiceByNameOrId c tok = .error (.serviceNotFound tok) ∧
      (BotError.serviceNotFound tok).message
        = "a service with id or name of [" ++ tok ++ "] was not found") ∧
    (∀ pre m post, c.services = pre ++ m :: post → (m.id = tok ∨ m.name = tok) →
      (∀ x ∈ pre, ¬(x.id = tok ∨ x.name = tok)) →
      disconnectServiceByNameOrId c tok = .ok { c with services := pre ++ post }) := by
  constructor
  · intro h
    rw [disconnectServiceByNameOrId, removeFirstNameOrId_not_mem tok c.services h]
    exact ⟨rfl, rfl⟩
  · intro pre m post hsv hm hpre
    rw [disconnectServiceByNameOrId, hsv,
      removeFirstNameOrId_first tok m hm pre post hpre]

/-- Witness for C8: disconnecting by the name `"Bar"` removes the second
service; disconnecting by the unknown token `"zz"` throws "was not found". -/
theorem C8_disconnectByNameOrId_witness :
    disconnectServiceByNameOrId cfgTwo "Bar"
      = .ok { cfgTwo with services := [epSvc "e1" "Foo" "x"] } ∧
    disconnectServiceByNameOrId cfgTwo "zz"
      = .error (.serviceNotFound "zz") := by
  constructor
  · have h := (C8_disconnectByNameOrId cfgTwo "Bar").2
      [epSvc "e1" "Foo" "x"] (epSvc "e2" "Bar" "y") [] rfl (Or.inr rfl) (by decide)
    rw [h]
    decide
  · exact ((C8_disconnectByNameOrId cfgTwo "zz").1 (by decide)).1

/-- Claim C9: on a store whose secret has been validated (a valid secret with
a non-empty verifier), decrypting what was encrypted recovers the plaintext:
directly at the cipher level (`internalDecrypt ∘ internalEncrypt = id`, the
`aes192` library contract), and through the store operations
(`decryptValue` of the `encryptValue` output returns the original value and
the untouched store); the empty string and an absent value pass through both
operations unchanged. -/
theorem C9_encrypt_decrypt_roundtrip (cipher : Cipher) (uuid : String)
    (c : BotConfig) (hv : c.secretValidated = true) (hk : c.secretKey ≠ "")
    (p : String) :
    internalDecrypt cipher c (internalEncrypt cipher c p) = .ok p ∧
    (∃ w, encryptValue cipher uuid c (some p) = .ok (some w, c) ∧
      decryptValue cipher uuid c (some w) = .ok (some p, c)) ∧
    encryptValue cipher uuid c (some "") = .ok (some "", c) ∧
    decryptValue cipher uuid c (some "") = .ok (some "", c) ∧
    encryptValue cipher uuid c none = .ok (none, c) ∧
    decryptValue cipher uuid c none = .ok (none, c) := by
  refine ⟨?_, ⟨encValPure cipher c.secret p, ?_, ?_⟩, ?_, ?_, rfl, rfl⟩
  · simp [internalDecrypt, internalEncrypt, cipher.roundtrip]
  · rw [encryptValue_validated cipher uuid c hv hk]
    rfl
  · exact decryptValue_encValPure cipher uuid c hv hk p
  · simp [encryptValue]
  · simp [decryptValue]

/-- Witness for C9: the validated store round-trips `"pw"` through the
internal cipher. -/
theorem C9_encrypt_decrypt_roundtrip_witness :
    internalDecrypt testCipher cfgValidated
      (internalEncrypt testCipher cfgValidated "pw") = .ok "pw" :=
  (C9_encrypt_decrypt_roundtrip testCipher "u" cfgValidated rfl (by decide) "pw").1

/-- Claim C10: on a name collision, `connectService` writes the suffixed name
into the caller's descriptor before appending it: the descriptor the caller
holds after the call (`n1`, the source's mutated `newService`) is the very
element appended to `services`, and its name is the store-assigned
`uniqueName`, which differs from the name the descriptor was created with. -/
theorem C10_descriptor_mutation (c : BotConfig) (n : BotService)
    (hdup : c.services.any (fun s => s.type == n.type && s.id == n.id) = false)
    (hcol : nameUsed c.services n.name = true) :
    ∃ n1, n1 = { n with name := uniqueName c.services n.name } ∧
      connectService c n = .ok (n1, { c with services := c.services ++ [n1] }) ∧
      n1.name ≠ n.name := by
  refine ⟨{ n with name := uniqueName c.services n.name }, rfl, ?_, ?_⟩
  · simp [connectService, hdup]
  · show uniqueName c.services n.name ≠ n.name
    obtain ⟨k, _, heq, _, _⟩ := (uniqueName_spec c.services n.name).2 hcol
    rw [heq]
    intro hcontra
    have hlen : (suffixedName n.name k).length = n.name.length := by rw [hcontra]
    have hx : (suffixedName n.name k).length
        = n.name.length + 2 + (Nat.repr k).length + 1 := by
      simp only [suffixedName, String.length_append]
      have e2 : (" (" : String).length = 2 := rfl
      have e3 : (")" : String).length = 1 := rfl
      rw [e2, e3]
    rw [hx] at hlen
    omega

/-- A store already holding a `"Foo"`. -/
def cfgFoo1 : BotConfig := { newBotConfig "" with services := [epSvc "e1" "Foo" "x"] }

/-- Witness for C10: connecting a second `"Foo"` hands the caller back a
descriptor renamed `"Foo (2)"`, identical to the appended element. -/
theorem C10_descriptor_mutation_witness :
    connectService cfgFoo1 (epSvc "e9" "Foo" "z")
      = .ok (⟨.endpoint, "e9", "Foo (2)", [("appPassword", "z")]⟩,
        { cfgFoo1 with services :=
          cfgFoo1.services ++ [⟨.endpoint, "e9", "Foo (2)", [("appPassword", "z")]⟩] }) := by
  obtain ⟨n1, h1, h2, h3⟩ := C10_descriptor_mutation cfgFoo1 (epSvc "e9" "Foo" "z")
    (by decide) (by decide)
  have hn : n1 = ⟨.endpoint, "e9", "Foo (2)", [("appPassword", "z")]⟩ := by
    rw [h1]
    decide
  rw [h2, hn]

end BotCfg
